import Mathlib

/-!
Shallow embedding of the QuickPick prompter core
(src/src/shared/ui/pickerPrompter.ts) from the aws-toolkit-vscode
repository, together with theorems settling the frozen claims about it.

JavaScript values attached to items (the data field) are modelled by the
inductive type JSVal; machine state mutated by the class methods is made
explicit as a PrompterState record threaded through the translated
functions.  Asynchronous code (promise chains, timers) is modelled by
sequential state passing and, for the filter-box controller, by an
explicit event-step relation over interleaved continuations.
-/

namespace Picker

/-- Model of a JavaScript runtime value as stored in the data field of a
DataQuickPickItem.  Functions (thunks) and symbols are identified by a
numeric id.  The wizard control signals WIZARD_BACK and WIZARD_EXIT are
imported from the wizard module (not part of the translated sources) and
are modelled from the spec as distinguished sentinel values; the symbol
CUSTOM_USER_INPUT is declared in the translated source itself. -/
inductive JSVal where
  | null
  | undefVal
  | bool (b : Bool)
  | num (n : Int)
  | str (s : String)
  | obj (fields : List (String × JSVal))
  | arr (elems : List JSVal)
  | func (id : Nat)
  | wizardBack
  | wizardExit
  | customUserInput
  deriving Repr

/-- Model of the JavaScript test (typeof v === 'object'); true for plain
objects, arrays and null. -/
def typeofIsObject : JSVal → Bool
  | .obj _ => true
  | .arr _ => true
  | .null => true
  | _ => false

/-- Model of the JavaScript test (typeof v === 'function'). -/
def typeofIsFunction : JSVal → Bool
  | .func _ => true
  | _ => false

/-- Model of JavaScript strict equality on the values reachable in the
translated code.  Primitives compare by value; objects, arrays and
functions are distinct references in this model and compare unequal;
the sentinel constructors compare equal to themselves (each models one
fixed runtime reference). -/
def jsStrictEq : JSVal → JSVal → Bool
  | .null, .null => true
  | .undefVal, .undefVal => true
  | .bool a, .bool b => a == b
  | .num a, .num b => a == b
  | .str a, .str b => a == b
  | .wizardBack, .wizardBack => true
  | .wizardExit, .wizardExit => true
  | .customUserInput, .customUserInput => true
  | _, _ => false

mutual

/-- Model of the JSON.stringify builtin on a single value: a canonical
serialization, returning none exactly where stringify yields the
JavaScript value undefined (the undefined value, functions and
symbols; the sentinel control signals are symbol-like and serialize to
none as well).  Object fields whose value does not serialize are
dropped; array elements that do not serialize become null, as in
JavaScript. -/
def jsonStringify : JSVal → Option String
  | .null => some "null"
  | .undefVal => none
  | .bool b => some (if b then "true" else "false")
  | .num n => some (toString n)
  | .str s => some (String.quote s)
  | .obj fields =>
      some ("\x7b" ++ String.intercalate "," (stringifyFields fields) ++ "\x7d")
  | .arr elems =>
      some ("[" ++ String.intercalate "," (stringifyElems elems) ++ "]")
  | .func _ => none
  | .wizardBack => none
  | .wizardExit => none
  | .customUserInput => none

/-- Serializes the fields of an object, dropping fields whose value does
not serialize, as the JSON.stringify builtin does. -/
def stringifyFields : List (String × JSVal) → List String
  | [] => []
  | (k, v) :: rest =>
      (match jsonStringify v with
       | some s => [String.quote k ++ ":" ++ s]
       | none => []) ++ stringifyFields rest

/-- Serializes the elements of an array, turning non-serializable
elements into null, as the JSON.stringify builtin does. -/
def stringifyElems : List JSVal → List String
  | [] => []
  | v :: rest => (jsonStringify v).getD "null" :: stringifyElems rest

end

/-- Translation of DataQuickPickItem: a vscode QuickPickItem together
with the BaseItem extension fields.  The optional onClick callback is
modelled by an optional side-effect id so that firing can be observed;
skipEstimate keeps its three JavaScript states (undefined, false,
true) as an Option Bool. -/
structure Item where
  label : String
  description : Option String := none
  detail : Option String := none
  alwaysShow : Bool := false
  data : JSVal := .undefVal
  invalidSelection : Bool := false
  onClick : Option Nat := none
  skipEstimate : Option Bool := none
  recentlyUsed : Bool := false
  deriving Repr

/-- Translation of DEFAULT_NO_ITEMS_ITEM (the localized label text is kept
as its source-string fallback). -/
def DEFAULT_NO_ITEMS_ITEM : Item :=
  { label := "[No items found]"
    detail := some "Click here to go back"
    alwaysShow := true
    data := .wizardBack }

/-- Translation of DEFAULT_ERROR_ITEM. -/
def DEFAULT_ERROR_ITEM : Item :=
  { label := "[Error loading items]"
    alwaysShow := true
    data := .wizardBack }

/-- Model of a JavaScript Error as far as the translated code inspects
it: only the message field is read. -/
structure JsError where
  message : String
  deriving Repr, DecidableEq

/-- An option that may be a plain item or a bare string replacing the
label of a base item (the noItemsFoundItem / errorItem configuration
shapes). -/
inductive ItemOption where
  | ofString (s : String)
  | ofItem (i : Item)
  deriving Repr

/-- The errorItem configuration additionally allows a function of the
error. -/
inductive ErrorItemOption where
  | plain (o : ItemOption)
  | ofFun (f : JsError → ItemOption)

/-- The slice of ExtendedQuickPickOptions read by the translated methods:
noItemsFoundItem, errorItem and the compare sort hook. -/
structure Options where
  noItemsFoundItem : Option ItemOption := none
  errorItem : Option ErrorItemOption := none
  compare : Option (Item → Item → Int) := none

/-- Translation of DEFAULT_QUICKPICK_OPTIONS (the fields the model
tracks: default placeholder and error items, no compare hook). -/
def DEFAULT_QUICKPICK_OPTIONS : Options :=
  { noItemsFoundItem := some (.ofItem DEFAULT_NO_ITEMS_ITEM)
    errorItem := some (.plain (.ofItem DEFAULT_ERROR_ITEM)) }

/-- Translation of resolveItemOption. -/
def resolveItemOption (base : Item) (item : ItemOption) : Item :=
  match item with
  | .ofString s => { base with label := s }
  | .ofItem i => i

/-- Translation of hashItem. -/
def hashItem (item : Item) : String :=
  item.label ++ ":" ++ item.description.getD "" ++ ":" ++ item.detail.getD ""

/-- Text appended to recently used items; the constant recentlyUsed from
the localizedText module, which is not among the translated sources.
Modelled from the spec: a fixed description suffix marking an item as
originating from a prior invocation. -/
def recentlyUsedText : String := "recently used"

/-- Translation of applyDescriptionSuffix.  Note the JavaScript
truthiness test on item.description: an empty string counts as absent,
so the parenthesised form is used only for a present, non-empty
description. -/
def applyDescriptionSuffix (suffix : String) (item : Item) : Item :=
  if !item.recentlyUsed then item
  else
    let base := item.description.getD ""
    let truthy : Bool := match item.description with
      | some s => s != ""
      | none => false
    let description := base ++ (if truthy then " (" ++ suffix ++ ")" else suffix)
    { item with description := some description }

/-- The _recentItem field of the prompter: either a full
DataQuickPickItem (the isDataQuickPickItem test succeeds on it) or a raw,
previously produced result value (the test fails). -/
inductive RecentVal where
  | item (i : Item)
  | raw (v : JSVal)

/-- The mutable state of a QuickPickPrompter made explicit: the visible
item list and active (highlighted) items of the underlying quick pick,
the placeholder flag, the pending-update counter of the QuickInputPrompter
base class, and the stored recent item.  The active-item array is a list
of optional items because the source can assign the out-of-bounds element
items[0] of an empty list, which is the JavaScript value undefined. -/
structure PrompterState where
  items : List Item := []
  activeItems : List (Option Item) := []
  isShowingPlaceholder : Bool := false
  pendingUpdates : Nat := 0
  recentItemVal : Option RecentVal := none

/-- The initial state of a freshly constructed prompter: no items, no
active items, no placeholder, no pending updates. -/
def initState : PrompterState := {}

/-- Translation of QuickPickPrompter.clearItems. -/
def clearItems (s : PrompterState) : PrompterState :=
  { s with items := [], isShowingPlaceholder := false }

/-- Translation of QuickPickPrompter.selectItems: highlight the current
items whose label is among the given labels, falling back to a
one-element array holding the first element of the item list (which is
undefined, modelled as none, when the list is empty). -/
def selectItems (args : List Item) (s : PrompterState) : PrompterState :=
  let selected := args.map (·.label)
  let active := s.items.filter fun item => selected.contains item.label
  if active.length = 0 then { s with activeItems := [s.items.get? 0] }
  else { s with activeItems := active.map some }

/-- Translation of the comparator closure built in
QuickPickPrompter.appendItems: recently used items sort first, then the
configured compare hook (0 when absent). -/
def sortFn (opts : Options) (a b : Item) : Int :=
  if a.recentlyUsed then -1
  else if b.recentlyUsed then 1
  else match opts.compare with
       | some c => c a b
       | none => 0

/-- The sort relation induced by the comparator: a sorts no later than b
when the comparator is non-positive.  The JavaScript engine sort is
stable (ES2019), so it is modelled by a stable insertion sort over this
relation. -/
def sortLe (opts : Options) (a b : Item) : Prop := sortFn opts a b ≤ 0

instance (opts : Options) : DecidableRel (sortLe opts) :=
  fun _ _ => Int.decLe _ _

/-- Translation of QuickPickPrompter.appendItems: concatenates the new
items (with the recently-used description suffix applied) to the current
list, sorts, and re-selects the previously active items.  The JavaScript
code spreads the previous activeItems into selectItems; entries that are
undefined (possible only after the placeholder corner handled in
selectItems) would throw there and are dropped by this model, a path no
translated claim exercises. -/
def appendItems (opts : Options) (newItems : List Item) (s : PrompterState) : PrompterState :=
  let recent := s.activeItems
  let merged := s.items ++ newItems.map (applyDescriptionSuffix recentlyUsedText)
  let s1 := { s with items := List.insertionSort (sortLe opts) merged }
  selectItems (recent.filterMap id) s1

/-- Translation of QuickPickPrompter.checkEmpty.  The pendingUpdate
parameter carries the value of the default argument
(pendingUpdates greater than zero) or the value passed at the call
site. -/
def checkEmpty (opts : Options) (pendingUpdate : Bool) (s : PrompterState) : PrompterState :=
  if s.items.length = 0 && !pendingUpdate then
    let s1 := { s with
      isShowingPlaceholder := true
      items := match opts.noItemsFoundItem with
               | some o => [resolveItemOption DEFAULT_NO_ITEMS_ITEM o]
               | none => [] }
    selectItems [] s1
  else s

/-- Translation of the expression
(typeof errorOption === 'function' ? errorOption(error) : errorOption)
in addErrorItem. -/
def evalErrorOption (errorOption : ErrorItemOption) (error : JsError) : ItemOption :=
  match errorOption with
  | .ofFun f => f error
  | .plain o => o

/-- The error record addErrorItem appends when the resolved error option
has no detail of its own: the resolved option with the message of the
error as detail. -/
def defaultedErrorItem (errorOption : ErrorItemOption) (error : JsError) : Item :=
  { resolveItemOption DEFAULT_ERROR_ITEM (evalErrorOption errorOption error) with
    detail := some error.message }

/-- Translation of QuickPickPrompter.addErrorItem: resolves the
configured error option against the default error item, defaults the
detail field to the message of the error, and appends the result. -/
def addErrorItem (opts : Options) (error : JsError) (s : PrompterState) : PrompterState :=
  match opts.errorItem with
  | none => s
  | some errorOption =>
    let s1 := { s with isShowingPlaceholder := true }
    let evalOption := evalErrorOption errorOption error
    let resolvedItem := resolveItemOption DEFAULT_ERROR_ITEM evalOption
    let resolvedItem := match resolvedItem.detail with
      | none => { resolvedItem with detail := some error.message }
      | some _ => resolvedItem
    appendItems opts [resolvedItem] s1

/-- The supply shapes of loadItems needed by the claims: a plain array or
a one-shot deferred batch that either resolves with items or rejects
with an error.  (The incremental-stream shape of the source is not
required by any claim and is not modelled.) -/
inductive ItemSupply where
  | array (items : List Item)
  | deferred (p : Except JsError (List Item))

/-- Translation of QuickPickPrompter.loadItems.  The async combinators of
the deferred branch are translated in evaluation order: the then step
appends on resolution, the catch step converts a rejection into the
error item, the finally step runs checkEmpty, and the surrounding
addBusyUpdate (from the QuickInputPrompter base class, not among the
translated sources; modelled from the spec as the pending update count
of section 5) holds the pending counter one higher for the duration,
releasing it after the finally handler ran.  The total Lean function
witnesses that no rejection escapes to the caller: every supply,
including a rejected deferred batch, produces a final state. -/
def loadItems (opts : Options) (s0 : PrompterState) (supply : ItemSupply) : PrompterState :=
  let s1 := if s0.isShowingPlaceholder then clearItems s0 else s0
  match supply with
  | .array items =>
      let s2 := appendItems opts items s1
      checkEmpty opts (decide (s2.pendingUpdates > 0)) s2
  | .deferred p =>
      let s2 := { s1 with pendingUpdates := s1.pendingUpdates + 1 }
      let s3 := match p with
        | .ok items => appendItems opts items s2
        | .error e => addErrorItem opts e s2
      let s4 := checkEmpty opts (decide (s3.pendingUpdates > 1)) s3
      { s4 with pendingUpdates := s4.pendingUpdates - 1 }

/-- Translation of recoverItemFromData. -/
def recoverItemFromData (data : JSVal) (items : List Item) : Option Item :=
  let stringified := jsonStringify data
  items.find? fun item =>
    if typeofIsObject item.data then stringified == jsonStringify item.data
    else if typeofIsFunction item.data then false
    else jsStrictEq data item.data

/-- Translation of QuickPickPrompter.isRecentItem.  When the stored
recent value is a raw result, the comparison item.label === recovered?.label
is false whenever recovery failed (a string never strictly equals
undefined). -/
def isRecentItem (s : PrompterState) (item : Item) : Bool :=
  match s.recentItemVal with
  | none => false
  | some (.item ri) => item.label == ri.label
  | some (.raw v) =>
      match recoverItemFromData v s.items with
      | some rec => item.label == rec.label
      | none => false

/-- Translation of QuickPickPrompter.matchRecentItem. -/
def matchRecentItem (s : PrompterState) : PrompterState :=
  match s.items.find? (isRecentItem s) with
  | some m => { selectItems [m] s with recentItemVal := none }
  | none =>
      if s.activeItems.length = 0 then selectItems [] s else s

/-- Translation of the recentItem setter of QuickPickPrompter: store the
response, then try to match it. -/
def setRecentItem (s : PrompterState) (response : Option RecentVal) : PrompterState :=
  matchRecentItem { s with recentItemVal := response }

/-- Translation of acceptItems.  The picker state it reads is the list of
selected items; its observable effects are the fired onClick side
effects (in selection order) and whether the pending promise of
promptUser was resolved, returned as an optional resolution value. -/
def acceptItems (selectedItems : List Item) : List Nat × Option (List Item) :=
  if selectedItems.length = 0 then ([], none)
  else
    let fired := selectedItems.filterMap (·.onClick)
    if selectedItems.any (·.invalidSelection) then (fired, none)
    else (fired, some selectedItems)

/-- The environment of the estimate closure in applyStepEstimator: the
estimator function of the enclosing flow, the optional result transform
of the prompter, and the resolution environment assigning to each thunk
id the value its promise resolves with. -/
structure EstimatorConfig where
  estimator : JSVal → Nat
  transform : Option (JSVal → JSVal) := none
  thunkResult : Nat → JSVal := fun _ => .undefVal

/-- Translation of the expression (transform?.(data) ?? data): when no
transform is configured, or the transform produces undefined or null
(the two values the nullish coalescing operator replaces), the data
itself is used. -/
def applyTransformOrData (cfg : EstimatorConfig) (v : JSVal) : JSVal :=
  match cfg.transform with
  | none => v
  | some t =>
      match t v with
      | .undefVal => v
      | .null => v
      | u => u

/-- Translation of the estimate closure in applyStepEstimator.  Returns
the estimated step count, whether the thunk of the item was invoked
while computing it, and the updated memo cache (keyed by hashItem; a
cons shadows older entries like an assignment into the record).  The
asynchronous thunk path of the source is translated by resolving the
promise of the thunk through the environment and sequencing the then
steps. -/
def estimate (cfg : EstimatorConfig) (cache : List (String × Nat)) (item : Item) :
    Nat × Bool × List (String × Nat) :=
  if item.skipEstimate == some true || item.invalidSelection then (0, false, cache)
  else
    let hash := hashItem item
    match cache.lookup hash with
    | some n => (n, false, cache)
    | none =>
      match item.data with
      | .func id =>
          if item.skipEstimate != some false then (0, false, (hash, 0) :: cache)
          else
            let result := applyTransformOrData cfg (cfg.thunkResult id)
            let e := cfg.estimator result
            (e, true, (hash, e) :: cache)
      | d =>
          let e := cfg.estimator (applyTransformOrData cfg d)
          (e, false, (hash, e) :: cache)

/-! ### Filter-box controller

The addFilterBoxInput closure of FilterBoxQuickPickPrompter is an
event-driven controller over the picker value, a debounce timer and a
single pending validation promise.  It is modelled as a small-step
machine: promises are identified by creation order, the timer holds the
promise and the captured filtered item list of the update invocation
that armed it, and resolving a promise runs the then handlers attached
to it (by a fired timer) in attachment order. -/

/-- The result of one validator call: a synchronous value or a promise
whose eventual value is given by the eventual function of the
configuration. -/
inductive ValidatorRet where
  | sync (r : Option String)
  | async

/-- Configuration of the filter-box controller: the label of the
synthetic item, the validator behaviour per input (the wrapper around
settings.validator returns the synchronous value undefined when no
validator is configured), and the eventual value each validation
promise resolves with for a given input. -/
structure FbConfig where
  label : String
  validate : String → ValidatorRet := fun _ => .sync none
  eventual : String → Option String := fun _ => none

/-- State of the filter-box controller: the picker value and item list,
the pending validation promise and the pending value captured for it,
the armed debounce timer (promise id plus the filtered items captured by
the update invocation that armed it), then handlers attached and not yet
run, the set of already resolved promise ids, and the id-to-input table
of created validation promises. -/
structure FbState where
  pickerValue : String := ""
  items : List Item := []
  pendingValidation : Option Nat := none
  pendingValue : Option String := none
  timer : Option (Nat × List Item) := none
  handlers : List (Nat × List Item) := []
  resolved : List Nat := []
  promiseInput : List (Nat × String) := []
  nextId : Nat := 0

/-- Translation of the createItem closure: the synthetic item carries
the configured label, the current picker value as description, the
custom-input sentinel as data, and the given detail and validity. -/
def createItem (cfg : FbConfig) (pickerValue : String) (detail : String)
    (invalidSelection : Bool) : Item :=
  { label := cfg.label
    description := some pickerValue
    alwaysShow := true
    data := .customUserInput
    invalidSelection
    detail := some detail }

/-- True exactly when the data field of the item is the CUSTOM_USER_INPUT
sentinel. -/
def isCustomData : JSVal → Bool
  | .customUserInput => true
  | _ => false

/-- JavaScript truthiness of a validator result string: a non-empty
string is truthy, the empty string and undefined are falsy. -/
def valTruthy : Option String → Bool
  | some s => s != ""
  | none => false

/-- Translation of the update closure of addFilterBoxInput.  The items
local is the current list without the synthetic entry; the timer is
cleared unconditionally.  For non-empty input, an existing pending
validation promise is reused (validate = pendingValidation ?? validator(value)),
otherwise the validator runs: an asynchronous result creates a fresh
promise, records it as pending, re-arms the debounce timer and shows the
interim Checking state, while a synchronous result is applied
immediately.  Empty input just removes the synthetic entry. -/
def update (cfg : FbConfig) (value : String) (s : FbState) : FbState :=
  let items := s.items.filter fun item => !isCustomData item.data
  let s := { s with timer := none }
  if value ≠ "" then
    match s.pendingValidation with
    | some p =>
        { s with
          pendingValue := s.pendingValue.or (some value)
          timer := some (p, items)
          items := createItem cfg s.pickerValue "Checking..." true :: items }
    | none =>
        match cfg.validate value with
        | .async =>
            let p := s.nextId
            { s with
              pendingValidation := some p
              promiseInput := (p, value) :: s.promiseInput
              nextId := s.nextId + 1
              pendingValue := s.pendingValue.or (some value)
              timer := some (p, items)
              items := createItem cfg s.pickerValue "Checking..." true :: items }
        | .sync r =>
            { s with
              items := createItem cfg s.pickerValue (r.getD "") (valTruthy r) :: items }
  else { s with items := items }

/-- Translation of the then handler attached by the debounce timer to the
validation promise: read and clear the pending value, and if the text
the validation was computed for no longer matches the current picker
value, recompute for the current value instead of applying the stale
result; otherwise build the synthetic item from the result and prepend
it to the item list captured when the timer was armed. -/
def runHandler (cfg : FbConfig) (p : Nat) (captured : List Item) (s : FbState) : FbState :=
  let result := cfg.eventual ((s.promiseInput.lookup p).getD "")
  let validatedValue := s.pendingValue
  let s := { s with pendingValidation := none, pendingValue := none }
  if validatedValue ≠ some s.pickerValue then
    update cfg s.pickerValue s
  else
    let inputItem := createItem cfg s.pickerValue (result.getD "") (valTruthy result)
    { s with items := inputItem :: captured }

/-- The scheduler events of the filter-box controller: a filter text
change (the onDidChangeValue hook runs update), the debounce timer
firing (attaching the then handler to the captured promise, running it
at once when that promise already resolved), and a validation promise
resolving (running the handlers attached to it in order). -/
inductive FbEvent where
  | change (v : String)
  | timerFire
  | resolve (p : Nat)

/-- Runs every handler attached to promise p, in attachment order. -/
def runHandlersFor (cfg : FbConfig) (p : Nat) (s : FbState) : FbState :=
  let hs := s.handlers.filter fun h => h.1 == p
  let s := { s with handlers := s.handlers.filter fun h => h.1 != p }
  hs.foldl (fun st h => runHandler cfg h.1 h.2 st) s

/-- One scheduler step of the filter-box controller. -/
def fbStep (cfg : FbConfig) (s : FbState) : FbEvent → FbState
  | .change v => update cfg v { s with pickerValue := v }
  | .timerFire =>
      match s.timer with
      | none => s
      | some (p, captured) =>
          let s := { s with timer := none }
          if s.resolved.contains p then runHandler cfg p captured s
          else { s with handlers := s.handlers ++ [(p, captured)] }
  | .resolve p =>
      let s := { s with resolved := p :: s.resolved }
      runHandlersFor cfg p s

/-- Runs a sequence of scheduler events from a state. -/
def fbRun (cfg : FbConfig) (s : FbState) (events : List FbEvent) : FbState :=
  events.foldl (fbStep cfg) s

/-- The list of all states visited while running the events, including
the initial and final state. -/
def fbTrace (cfg : FbConfig) (s : FbState) : List FbEvent → List FbState
  | [] => [s]
  | e :: rest => s :: fbTrace cfg (fbStep cfg s e) rest

/-! ### FilterBoxQuickPickPrompter recentItem -/

/-- The slice of FilterBoxInput read by the recentItem setter: the
optional inverse function (parses a produced result back into filter
text).  Declared in the source interface; see the claim about its
use. -/
structure FbSettings where
  inverse : Option (JSVal → String) := none

/-- Model of a JavaScript property access v.data on a raw value: the
field of an object, undefined otherwise. -/
def jsDataField : JSVal → JSVal
  | .obj fields => (fields.lookup "data").getD .undefVal
  | _ => .undefVal

/-- Model of (response.description ?? '') on a raw value. -/
def jsDescriptionField : JSVal → String
  | .obj fields =>
      match (fields.lookup "description").getD .undefVal with
      | .str s => s
      | _ => ""
  | _ => ""

/-- Translation of FilterBoxQuickPickPrompter.isUserInput:
picked !== undefined and picked.data === CUSTOM_USER_INPUT. -/
def isUserInput (picked : Option RecentVal) : Bool :=
  match picked with
  | none => false
  | some (.item i) => isCustomData i.data
  | some (.raw v) => isCustomData (jsDataField v)

/-- Combined state of a FilterBoxQuickPickPrompter as read by the
recentItem setter: the base prompter state plus the picker value (the
filter box text). -/
structure FbPrompterState where
  base : PrompterState := {}
  pickerValue : String := ""

/-- Translation of the recentItem setter override of
FilterBoxQuickPickPrompter: a response that is the synthetic user-input
item re-populates the filter box from its description field; any other
response is delegated unchanged to the base class setter (which stores
it and runs matchRecentItem).  The settings parameter carries the
configured inverse function, which this setter never reads. -/
def fbSetRecentItem (settings : FbSettings) (s : FbPrompterState)
    (response : Option RecentVal) : FbPrompterState :=
  if isUserInput response then
    match response with
    | some (.item i) => { s with pickerValue := i.description.getD "" }
    | some (.raw v) => { s with pickerValue := jsDescriptionField v }
    | none => s
  else
    { s with base := setRecentItem s.base response }

/-- A concrete selected record used to witness the acceptance claim: an
invalid selection with an onClick side effect. -/
def c8item : Item :=
  { label := "a", onClick := some 1, invalidSelection := true }

/-- A filter-box configuration whose validator is asynchronous for every
input and resolves to the given eventual results; used to state the
stale-validation scenario. -/
def fbcfg (f : String → Option String) : FbConfig :=
  { label := "L", validate := fun _ => .async, eventual := f }

/-- The scheduler trace of the stale-validation scenario: the filter
text changes from abc to abcd before the debounce timer for the first
validation fires, then the first validation resolves (stale), then the
recomputed validation for abcd runs to completion. -/
def c2events : List FbEvent :=
  [FbEvent.change "abc", .change "abcd", .timerFire, .resolve 0, .timerFire, .resolve 1]

/-- The ordering property claimed for loaded lists: every recently used
record precedes every record not so flagged. -/
def recentFirst (l : List Item) : Prop :=
  l.Pairwise fun a b => b.recentlyUsed → a.recentlyUsed

/-! ### Helper lemmas -/

theorem applyDescriptionSuffix_detail (suffix : String) (item : Item) :
    (applyDescriptionSuffix suffix item).detail = item.detail := by
  unfold applyDescriptionSuffix
  split <;> rfl

theorem selectItems_isShowingPlaceholder (args : List Item) (s : PrompterState) :
    (selectItems args s).isShowingPlaceholder = s.isShowingPlaceholder := by
  unfold selectItems
  dsimp only
  split <;> rfl

theorem selectItems_items (args : List Item) (s : PrompterState) :
    (selectItems args s).items = s.items := by
  unfold selectItems
  dsimp only
  split <;> rfl

theorem selectItems_pendingUpdates (args : List Item) (s : PrompterState) :
    (selectItems args s).pendingUpdates = s.pendingUpdates := by
  unfold selectItems
  dsimp only
  split <;> rfl

theorem appendItems_isShowingPlaceholder (opts : Options) (newItems : List Item)
    (s : PrompterState) :
    (appendItems opts newItems s).isShowingPlaceholder = s.isShowingPlaceholder := by
  unfold appendItems
  rw [selectItems_isShowingPlaceholder]

theorem appendItems_pendingUpdates (opts : Options) (newItems : List Item)
    (s : PrompterState) :
    (appendItems opts newItems s).pendingUpdates = s.pendingUpdates := by
  unfold appendItems
  rw [selectItems_pendingUpdates]

theorem appendItems_items (opts : Options) (newItems : List Item) (s : PrompterState) :
    (appendItems opts newItems s).items =
      List.insertionSort (sortLe opts)
        (s.items ++ newItems.map (applyDescriptionSuffix recentlyUsedText)) := by
  unfold appendItems
  rw [selectItems_items]

/-- The default sort relation (no compare hook) holds exactly when the
left item is recently used or the right one is not. -/
theorem sortLe_default_iff (a b : Item) :
    sortLe DEFAULT_QUICKPICK_OPTIONS a b ↔ (a.recentlyUsed ∨ ¬ b.recentlyUsed) := by
  unfold sortLe sortFn DEFAULT_QUICKPICK_OPTIONS
  cases ha : a.recentlyUsed <;> cases hb : b.recentlyUsed <;> simp

instance : IsTotal Item (sortLe DEFAULT_QUICKPICK_OPTIONS) where
  total a b := by
    rw [sortLe_default_iff, sortLe_default_iff]
    by_cases h : b.recentlyUsed
    · by_cases h2 : a.recentlyUsed
      · exact Or.inl (Or.inl h2)
      · exact Or.inr (Or.inl h)
    · exact Or.inl (Or.inr h)

instance : IsTrans Item (sortLe DEFAULT_QUICKPICK_OPTIONS) where
  trans a b c hab hbc := by
    rw [sortLe_default_iff] at hab hbc ⊢
    rcases hab with h | h
    · exact Or.inl h
    · rcases hbc with h2 | h2
      · exact absurd h2 h
      · exact Or.inr h2


theorem find?_congr_bool {α : Type} {p q : α → Bool} (h : ∀ x, p x = q x) :
    ∀ l : List α, l.find? p = l.find? q := by
  intro l
  induction l with
  | nil => rfl
  | cons a l ih =>
    rw [List.find?_cons, List.find?_cons, h a]
    cases q a
    · exact ih
    · rfl

theorem find?_label_self (r : Item) (l : List Item)
    (hdist : l.Pairwise fun a b => a.label ≠ b.label) (hr : r ∈ l) :
    l.find? (fun it => it.label == r.label) = some r := by
  induction l with
  | nil => exact absurd hr (List.not_mem_nil r)
  | cons a l ih =>
    rcases List.mem_cons.mp hr with heq | hmem
    · subst heq
      rw [List.find?_cons]
      simp
    · have hne : a.label ≠ r.label := (List.pairwise_cons.mp hdist).1 r hmem
      rw [List.find?_cons]
      have hfa : (a.label == r.label) = false := by
        simp [hne]
      rw [hfa]
      exact ih (List.pairwise_cons.mp hdist).2 hmem

theorem filter_label_self (r : Item) (l : List Item)
    (hdist : l.Pairwise fun a b => a.label ≠ b.label) (hr : r ∈ l) :
    l.filter (fun it => it.label == r.label) = [r] := by
  induction l with
  | nil => exact absurd hr (List.not_mem_nil r)
  | cons a l ih =>
    rcases List.mem_cons.mp hr with heq | hmem
    · subst heq
      have hnil : l.filter (fun it => it.label == r.label) = [] := by
        apply List.filter_eq_nil_iff.mpr
        intro b hb
        have hne : r.label ≠ b.label := (List.pairwise_cons.mp hdist).1 b hb
        simp [Ne.symm hne]
      rw [List.filter_cons]
      simp [hnil]
    · have hne : a.label ≠ r.label := (List.pairwise_cons.mp hdist).1 r hmem
      rw [List.filter_cons]
      have hfa : (a.label == r.label) = false := by
        simp [hne]
      rw [hfa]
      simp only [Bool.false_eq_true, if_neg]
      exact ih (List.pairwise_cons.mp hdist).2 hmem

theorem selectItems_single (r : Item) (s : PrompterState)
    (hdist : s.items.Pairwise fun a b => a.label ≠ b.label) (hmem : r ∈ s.items) :
    (selectItems [r] s).activeItems = [some r] := by
  have hpt : ∀ x ∈ s.items,
      ((List.map (fun x => x.label) [r]).contains x.label) = (x.label == r.label) := by
    intro x _
    simp only [List.map_cons, List.map_nil, List.contains_cons, List.contains_nil,
      Bool.or_false]
  have hfilter :
      (s.items.filter fun item => (List.map (fun x => x.label) [r]).contains item.label) = [r] := by
    rw [List.filter_congr hpt]
    exact filter_label_self r s.items hdist hmem
  unfold selectItems
  dsimp only
  rw [hfilter]
  rfl

/-! ### Claims -/

/-- C6: clearItems is idempotent: for every prompter state, calling
clearItems twice in a row yields the same state as calling it once,
namely an empty visible list and a cleared placeholder flag. -/
theorem claim_C6 (s : PrompterState) :
    clearItems (clearItems s) = clearItems s ∧
    (clearItems s).items = [] ∧
    (clearItems s).isShowingPlaceholder = false :=
  ⟨rfl, rfl, rfl⟩

/-- C10: when no given label matches any current item, selectItems
unconditionally indexes the first element of the item list without an
emptiness guard, so the active-item set becomes the one-element list
holding the (possibly undefined, modelled as none) first element; in
particular, on an empty item list it becomes the one-element list
containing the undefined element rather than the empty list. -/
theorem claim_C10 (s : PrompterState) (args : List Item)
    (h : ∀ it ∈ s.items, ((args.map (·.label)).contains it.label) = false) :
    (selectItems args s).activeItems = [s.items.get? 0] ∧
    (s.items = [] →
      (selectItems args s).activeItems = [none] ∧
      (selectItems args s).activeItems ≠ []) := by
  have hfilter : (s.items.filter fun item => (args.map (·.label)).contains item.label) = [] := by
    apply List.filter_eq_nil_iff.mpr
    intro a ha
    rw [h a ha]
    simp
  have hsel : (selectItems args s).activeItems = [s.items.get? 0] := by
    unfold selectItems
    dsimp only
    rw [hfilter]
    rfl
  refine ⟨hsel, fun hempty => ⟨?_, ?_⟩⟩
  · rw [hsel, hempty]
    rfl
  · rw [hsel]
    simp

/-- Witness for C10 at the empty prompter with no requested labels. -/
theorem claim_C10_witness :
    (∀ it ∈ initState.items, ((([] : List Item).map (·.label)).contains it.label) = false) ∧
    ((selectItems [] initState).activeItems = [initState.items.get? 0] ∧
      (initState.items = [] →
        (selectItems [] initState).activeItems = [none] ∧
        (selectItems [] initState).activeItems ≠ [])) :=
  ⟨by intro it hit; simp [initState] at hit,
   claim_C10 initState [] (by intro it hit; simp [initState] at hit)⟩

/-- C8: on user acceptance with a non-empty selected set, every
per-record onClick side effect fires unconditionally (including those of
records flagged invalid) before the invalidity check, and the pending
result is resolved exactly when no selected record has invalidSelection
set; when some selected record is invalid nothing is resolved. -/
theorem claim_C8 (selectedItems : List Item) (h : selectedItems ≠ []) :
    (acceptItems selectedItems).1 = selectedItems.filterMap (·.onClick) ∧
    (acceptItems selectedItems).2 =
      (if selectedItems.any (·.invalidSelection) then none else some selectedItems) ∧
    ((acceptItems selectedItems).2.isSome ↔ ∀ it ∈ selectedItems, it.invalidSelection = false) := by
  have hlen : ¬ selectedItems.length = 0 := by
    simpa [List.length_eq_zero] using h
  unfold acceptItems
  rw [if_neg hlen]
  dsimp only
  by_cases hinv : selectedItems.any (·.invalidSelection) = true
  · rw [if_pos hinv]
    refine ⟨rfl, by rw [if_pos hinv], ?_⟩
    simp only [List.any_eq_true] at hinv
    obtain ⟨it, hit, hflag⟩ := hinv
    simp only [Option.isSome_none, Bool.false_eq_true, false_iff, not_forall]
    exact ⟨it, ⟨hit, by simp [hflag]⟩⟩
  · rw [if_neg hinv]
    refine ⟨rfl, by rw [if_neg hinv], ?_⟩
    simp only [List.any_eq_true, not_exists] at hinv
    simp only [Option.isSome_some, true_iff]
    intro it hit
    by_contra hc
    simp only [Bool.not_eq_false] at hc
    exact (hinv it) ⟨hit, hc⟩

/-- Witness for C8: a single selected record flagged invalid with an
onClick hook fires its side effect and blocks resolution. -/
theorem claim_C8_witness :
    (c8item :: []) ≠ [] ∧
    ((acceptItems [c8item]).1 = [c8item].filterMap (·.onClick) ∧
      (acceptItems [c8item]).2 =
        (if [c8item].any (·.invalidSelection) then none else some [c8item]) ∧
      ((acceptItems [c8item]).2.isSome ↔ ∀ it ∈ [c8item], it.invalidSelection = false)) :=
  ⟨by simp, claim_C8 [c8item] (by simp)⟩

/-- C7: for an option record whose value is a thunk, not marked invalid
and with skipEstimate left unset, the translated estimate closure does
not invoke the thunk and does not consult the estimator: it caches and
returns 0 for every estimator configuration (because the source treats
an unset skipEstimate on a thunk-valued record as skip, contradicting
the documented default of false for thunks).  The middle component of
the result records whether the thunk was invoked. -/
theorem claim_C7 (cfg : EstimatorConfig) (id : Nat) (lbl : String) :
    estimate cfg [] { label := lbl, data := .func id } =
      (0, false, [(hashItem { label := lbl, data := .func id }, 0)]) :=
  rfl

/-- C9: supplying a previously produced (transformed) result value back
as the recent selection routes through the base-class setter for every
configured inverse function: the filter box text is left unchanged and
the inverse function is never applied (the source declares the inverse
setting but never reads it). -/
theorem claim_C9 (inv : JSVal → String) (s : FbPrompterState) :
    fbSetRecentItem { inverse := some inv } s (some (.raw (.str "X"))) =
      { s with base := setRecentItem s.base (some (.raw (.str "X"))) } ∧
    (fbSetRecentItem { inverse := some inv } s (some (.raw (.str "X")))).pickerValue =
      s.pickerValue :=
  ⟨rfl, rfl⟩

/-- C3: loading the empty array supply into a fresh prompter under the
default configuration leaves exactly the default no-items placeholder in
the visible list, whose attached data is the BACK control signal, and
sets the placeholder flag. -/
theorem claim_C3 :
    (loadItems DEFAULT_QUICKPICK_OPTIONS initState (.array [])).items =
      [DEFAULT_NO_ITEMS_ITEM] ∧
    DEFAULT_NO_ITEMS_ITEM.data = .wizardBack ∧
    (loadItems DEFAULT_QUICKPICK_OPTIONS initState (.array [])).isShowingPlaceholder = true :=
  ⟨rfl, rfl, rfl⟩


/-- A nonempty item list used to witness the amended array-load claim:
one plain record and one recently used record supplied out of order. -/
def c4items : List Item :=
  [{ label := "b" }, { label := "a", recentlyUsed := true }]

theorem checkEmpty_of_nonempty (opts : Options) (pending : Bool) (s : PrompterState)
    (h : s.items.length ≠ 0) : checkEmpty opts pending s = s := by
  unfold checkEmpty
  have hc : (decide (s.items.length = 0) && !pending) = false := by
    simp [h]
  rw [hc]
  rfl

/-- C4 counterexample: loading the empty array supply (N equals 0) into a
fresh prompter under the default configuration yields one placeholder
record with the placeholder flag set, not the supplied zero records
without a placeholder. -/
theorem claim_C4_counterexample :
    (loadItems DEFAULT_QUICKPICK_OPTIONS initState (.array [])).items.length = 1 ∧
    (loadItems DEFAULT_QUICKPICK_OPTIONS initState (.array [])).isShowingPlaceholder = true ∧
    ¬ ((loadItems DEFAULT_QUICKPICK_OPTIONS initState (.array [])).items.length = 0 ∧
       (loadItems DEFAULT_QUICKPICK_OPTIONS initState (.array [])).isShowingPlaceholder = false) :=
  ⟨rfl, rfl, by decide⟩

/-- C4 (amended to nonempty supplies): for every nonempty array supply
loaded into an initially empty prompter under the default configuration,
after loadItems resolves the visible list contains exactly the supplied
records (up to the documented recently-used description suffix), no
placeholder is shown, and every recently used record precedes every
record not so flagged. -/
theorem claim_C4 (items : List Item) (h : items ≠ []) :
    (loadItems DEFAULT_QUICKPICK_OPTIONS initState (.array items)).items.length =
      items.length ∧
    (loadItems DEFAULT_QUICKPICK_OPTIONS initState (.array items)).items.Perm
      (items.map (applyDescriptionSuffix recentlyUsedText)) ∧
    (loadItems DEFAULT_QUICKPICK_OPTIONS initState (.array items)).isShowingPlaceholder =
      false ∧
    recentFirst (loadItems DEFAULT_QUICKPICK_OPTIONS initState (.array items)).items := by
  have hs2items : (appendItems DEFAULT_QUICKPICK_OPTIONS items initState).items =
      List.insertionSort (sortLe DEFAULT_QUICKPICK_OPTIONS)
        (items.map (applyDescriptionSuffix recentlyUsedText)) := by
    rw [appendItems_items]
    rfl
  have hne : (appendItems DEFAULT_QUICKPICK_OPTIONS items initState).items.length ≠ 0 := by
    rw [hs2items, List.length_insertionSort, List.length_map]
    simpa [List.length_eq_zero] using h
  have hload : loadItems DEFAULT_QUICKPICK_OPTIONS initState (.array items) =
      appendItems DEFAULT_QUICKPICK_OPTIONS items initState := by
    show checkEmpty DEFAULT_QUICKPICK_OPTIONS _ (appendItems DEFAULT_QUICKPICK_OPTIONS items initState) =
      appendItems DEFAULT_QUICKPICK_OPTIONS items initState
    exact checkEmpty_of_nonempty _ _ _ hne
  rw [hload, hs2items]
  refine ⟨?_, ?_, ?_, ?_⟩
  · rw [List.length_insertionSort, List.length_map]
  · exact List.perm_insertionSort _ _
  · rw [appendItems_isShowingPlaceholder]
    rfl
  · have hsorted := List.sorted_insertionSort (sortLe DEFAULT_QUICKPICK_OPTIONS)
      (items.map (applyDescriptionSuffix recentlyUsedText))
    exact hsorted.imp fun hab hb =>
      ((sortLe_default_iff _ _).mp hab).resolve_right (not_not_intro hb)

/-- Witness for C4 at a two-element supply with the recently used record
second. -/
theorem claim_C4_witness :
    c4items ≠ [] ∧
    ((loadItems DEFAULT_QUICKPICK_OPTIONS initState (.array c4items)).items.length =
        c4items.length ∧
      (loadItems DEFAULT_QUICKPICK_OPTIONS initState (.array c4items)).items.Perm
        (c4items.map (applyDescriptionSuffix recentlyUsedText)) ∧
      (loadItems DEFAULT_QUICKPICK_OPTIONS initState (.array c4items)).isShowingPlaceholder =
        false ∧
      recentFirst (loadItems DEFAULT_QUICKPICK_OPTIONS initState (.array c4items)).items) :=
  ⟨by unfold c4items; exact List.cons_ne_nil _ _,
   claim_C4 c4items (by unfold c4items; exact List.cons_ne_nil _ _)⟩

/-- C1: for a deferred batch that rejects with an error, loadItems still
produces a final state (the rejection is caught and converted; the
totality of the translated function is the resolution of the returned
promise), and afterwards the visible list of an initially empty prompter
contains exactly one synthetic error record whose detail equals the
message of the error, whenever an error item is configured and the
configured error item resolves without a detail of its own. -/
theorem claim_C1 (opts : Options) (e : JsError) (errOpt : ErrorItemOption)
    (hopt : opts.errorItem = some errOpt)
    (hdetail : (resolveItemOption DEFAULT_ERROR_ITEM (evalErrorOption errOpt e)).detail = none) :
    (loadItems opts initState (.deferred (.error e))).items.length = 1 ∧
    ∀ it ∈ (loadItems opts initState (.deferred (.error e))).items,
      it.detail = some e.message := by
  have herr : ∀ s : PrompterState, addErrorItem opts e s =
      appendItems opts [defaultedErrorItem errOpt e] { s with isShowingPlaceholder := true } := by
    intro s
    unfold addErrorItem
    rw [hopt]
    dsimp only
    rw [hdetail]
    rfl
  have hAitems : (addErrorItem opts e { initState with pendingUpdates := 1 }).items =
      [applyDescriptionSuffix recentlyUsedText (defaultedErrorItem errOpt e)] := by
    rw [herr, appendItems_items]
    rfl
  have hApu : (addErrorItem opts e { initState with pendingUpdates := 1 }).pendingUpdates = 1 := by
    rw [herr, appendItems_pendingUpdates]
  have hlen : (addErrorItem opts e { initState with pendingUpdates := 1 }).items.length ≠ 0 := by
    rw [hAitems]
    simp
  have hloaditems : (loadItems opts initState (.deferred (.error e))).items =
      (checkEmpty opts
        (decide ((addErrorItem opts e { initState with pendingUpdates := 1 }).pendingUpdates > 1))
        (addErrorItem opts e { initState with pendingUpdates := 1 })).items := rfl
  rw [hApu] at hloaditems
  have hdec : (decide ((1 : Nat) > 1)) = false := rfl
  rw [hdec, checkEmpty_of_nonempty opts false _ hlen, hAitems] at hloaditems
  refine ⟨by rw [hloaditems]; rfl, ?_⟩
  intro it hit
  rw [hloaditems, List.mem_singleton] at hit
  subst hit
  rw [applyDescriptionSuffix_detail]
  rfl

/-- Witness for C1: the default configuration and a rejection with
message boom produce exactly one error record carrying that message as
its detail. -/
theorem claim_C1_witness :
    (DEFAULT_QUICKPICK_OPTIONS.errorItem = some (.plain (.ofItem DEFAULT_ERROR_ITEM))) ∧
    ((resolveItemOption DEFAULT_ERROR_ITEM
        (evalErrorOption (.plain (.ofItem DEFAULT_ERROR_ITEM)) ⟨"boom"⟩)).detail = none) ∧
    ((loadItems DEFAULT_QUICKPICK_OPTIONS initState
        (.deferred (.error ⟨"boom"⟩))).items.length = 1 ∧
      ∀ it ∈ (loadItems DEFAULT_QUICKPICK_OPTIONS initState
          (.deferred (.error ⟨"boom"⟩))).items,
        it.detail = some (JsError.mk "boom").message) :=
  ⟨rfl, rfl,
   claim_C1 DEFAULT_QUICKPICK_OPTIONS ⟨"boom"⟩ (.plain (.ofItem DEFAULT_ERROR_ITEM)) rfl rfl⟩


/-- C5: recency matching over a raw previously produced result value.
Under the data-model invariant that labels identify records (pairwise
distinct labels), when recovery finds a record, exactly that record
becomes highlighted; the matched record is never thunk-valued, and it
matched through canonical serialization when its value is an object and
through strict equality otherwise.  Moreover (stated for all inputs) the
recovery predicate is exactly the claimed disjunction, and on a failed
recovery with a nonempty active set the state, hence the default first
highlight, is left unchanged.  The recovery function is total, so the
matching never throws. -/
theorem claim_C5 (s : PrompterState) (v : JSVal) (r : Item)
    (hrec : s.recentItemVal = some (.raw v))
    (hdist : s.items.Pairwise fun a b => a.label ≠ b.label)
    (hmatch : recoverItemFromData v s.items = some r) :
    (matchRecentItem s).activeItems = [some r] ∧
    typeofIsFunction r.data = false ∧
    (typeofIsObject r.data = true → jsonStringify v = jsonStringify r.data) ∧
    (typeofIsObject r.data = false → jsStrictEq v r.data = true) ∧
    (∀ (v2 : JSVal) (items2 : List Item),
      recoverItemFromData v2 items2 = items2.find? fun item =>
        (typeofIsObject item.data && (jsonStringify v2 == jsonStringify item.data)) ||
        (!typeofIsObject item.data && !typeofIsFunction item.data && jsStrictEq v2 item.data)) ∧
    (∀ (s2 : PrompterState) (v2 : JSVal),
      s2.recentItemVal = some (.raw v2) →
      recoverItemFromData v2 s2.items = none →
      s2.activeItems.length ≠ 0 →
      matchRecentItem s2 = s2) := by
  have hmatch0 : s.items.find? (fun item =>
      if typeofIsObject item.data then jsonStringify v == jsonStringify item.data
      else if typeofIsFunction item.data then false
      else jsStrictEq v item.data) = some r := hmatch
  have hpredr := List.find?_some hmatch0
  have hmem := List.mem_of_find?_eq_some hmatch0
  have hfun : typeofIsFunction r.data = false := by
    by_cases hobj : typeofIsObject r.data
    · cases hd : r.data <;> simp [typeofIsFunction] <;> simp [typeofIsObject, hd] at hobj
    · by_contra hf
      simp only [Bool.not_eq_false] at hf
      rw [if_neg hobj, if_pos hf] at hpredr
      exact absurd hpredr (by simp)
  refine ⟨?_, hfun, ?_, ?_, ?_, ?_⟩
  · have hrecfun : ∀ it : Item, isRecentItem s it = (it.label == r.label) := by
      intro it
      unfold isRecentItem
      rw [hrec]
      dsimp only
      rw [hmatch]
    have hfind : s.items.find? (isRecentItem s) = some r := by
      rw [find?_congr_bool hrecfun s.items]
      exact find?_label_self r s.items hdist hmem
    unfold matchRecentItem
    rw [hfind]
    show (selectItems [r] s).activeItems = [some r]
    exact selectItems_single r s hdist hmem
  · intro hobj
    rw [if_pos hobj] at hpredr
    exact eq_of_beq hpredr
  · intro hobj
    rw [if_neg (by simp [hobj]), if_neg (by simp [hfun])] at hpredr
    exact hpredr
  · intro v2 items2
    unfold recoverItemFromData
    apply find?_congr_bool
    intro item
    by_cases hobj : typeofIsObject item.data <;>
      by_cases hf : typeofIsFunction item.data <;>
        simp [hobj, hf]
  · intro s2 v2 hrec2 hnone hact
    have hrecfun2 : ∀ it : Item, isRecentItem s2 it = false := by
      intro it
      unfold isRecentItem
      rw [hrec2]
      dsimp only
      rw [hnone]
    have hfind2 : s2.items.find? (isRecentItem s2) = none := by
      rw [find?_congr_bool hrecfun2 s2.items]
      simp [List.find?_eq_none]
    unfold matchRecentItem
    rw [hfind2]
    dsimp only
    rw [if_neg hact]

/-- Witness for C5: a two-record list with distinct labels whose second
record carries the prior result value 1; recovery highlights exactly
that record. -/
theorem claim_C5_witness :
    (({ items := [{ label := "a", data := .num 2 }, { label := "b", data := .num 1 }],
        activeItems := [some { label := "a", data := .num 2 }],
        recentItemVal := some (.raw (.num 1)) } : PrompterState).recentItemVal =
      some (.raw (.num 1))) ∧
    (recoverItemFromData (.num 1)
        [{ label := "a", data := .num 2 }, { label := "b", data := .num 1 }] =
      some { label := "b", data := .num 1 }) ∧
    (matchRecentItem
        { items := [{ label := "a", data := .num 2 }, { label := "b", data := .num 1 }],
          activeItems := [some { label := "a", data := .num 2 }],
          recentItemVal := some (.raw (.num 1)) }).activeItems =
      [some { label := "b", data := .num 1 }] :=
  ⟨rfl, rfl,
   (claim_C5
      { items := [{ label := "a", data := .num 2 }, { label := "b", data := .num 1 }],
        activeItems := [some { label := "a", data := .num 2 }],
        recentItemVal := some (.raw (.num 1)) }
      (.num 1) { label := "b", data := .num 1 } rfl
      (by simp) rfl).1⟩


/-- C2: in free-text mode with an asynchronous validator, when the text
changes from abc to abcd before the validation requested for abc
resolves, the result computed for abc is never shown on the synthetic
record anywhere along the run: the interim states show only the Checking
detail and the final state shows the result for abcd.  In general
(conjuncts three and four), a resolved deferred validation is applied
only when the pending text it was computed for still equals the current
filter text, and otherwise the handler output is exactly a fresh
recomputation for the current text, independent of the resolved
result. -/
theorem claim_C2 (f : String → Option String)
    (h1 : f "abc" ≠ f "abcd") (h2 : f "abc" ≠ some "Checking...")
    (h3 : f "abc" ≠ none) (h4 : f "abc" ≠ some "") :
    (∀ st ∈ fbTrace (fbcfg f) {} c2events, ∀ item ∈ st.items,
      isCustomData item.data = true → item.detail ≠ some ((f "abc").getD "")) ∧
    (fbRun (fbcfg f) {} c2events).items =
      [createItem (fbcfg f) "abcd" ((f "abcd").getD "") (valTruthy (f "abcd"))] ∧
    (∀ (cfg : FbConfig) (p : Nat) (cap : List Item) (st : FbState),
      st.pendingValue ≠ some st.pickerValue →
      runHandler cfg p cap st =
        update cfg st.pickerValue { st with pendingValidation := none, pendingValue := none }) ∧
    (∀ (cfg : FbConfig) (p : Nat) (cap : List Item) (st : FbState),
      st.pendingValue = some st.pickerValue →
      runHandler cfg p cap st =
        { st with
          pendingValidation := none
          pendingValue := none
          items := createItem cfg st.pickerValue
            ((cfg.eventual ((st.promiseInput.lookup p).getD "")).getD "")
            (valTruthy (cfg.eventual ((st.promiseInput.lookup p).getD ""))) :: cap }) := by
  obtain ⟨x, hx⟩ := Option.ne_none_iff_exists'.mp h3
  have hxne : x ≠ "Checking..." := by
    intro hcontra
    exact h2 (by rw [hx, hcontra])
  have hxne2 : x ≠ "" := by
    intro hcontra
    exact h4 (by rw [hx, hcontra])
  have htr : fbTrace (fbcfg f) {} c2events =
      [{},
       { pickerValue := "abc", items := [createItem (fbcfg f) "abc" "Checking..." true],
         pendingValidation := some 0, pendingValue := some "abc", timer := some (0, []),
         handlers := [], resolved := [], promiseInput := [(0, "abc")], nextId := 1 },
       { pickerValue := "abcd", items := [createItem (fbcfg f) "abcd" "Checking..." true],
         pendingValidation := some 0, pendingValue := some "abc", timer := some (0, []),
         handlers := [], resolved := [], promiseInput := [(0, "abc")], nextId := 1 },
       { pickerValue := "abcd", items := [createItem (fbcfg f) "abcd" "Checking..." true],
         pendingValidation := some 0, pendingValue := some "abc", timer := none,
         handlers := [(0, [])], resolved := [], promiseInput := [(0, "abc")], nextId := 1 },
       { pickerValue := "abcd", items := [createItem (fbcfg f) "abcd" "Checking..." true],
         pendingValidation := some 1, pendingValue := some "abcd", timer := some (1, []),
         handlers := [], resolved := [0], promiseInput := [(1, "abcd"), (0, "abc")],
         nextId := 2 },
       { pickerValue := "abcd", items := [createItem (fbcfg f) "abcd" "Checking..." true],
         pendingValidation := some 1, pendingValue := some "abcd", timer := none,
         handlers := [(1, [])], resolved := [0], promiseInput := [(1, "abcd"), (0, "abc")],
         nextId := 2 },
       { pickerValue := "abcd",
         items := [createItem (fbcfg f) "abcd" ((f "abcd").getD "") (valTruthy (f "abcd"))],
         pendingValidation := none, pendingValue := none, timer := none,
         handlers := [], resolved := [1, 0], promiseInput := [(1, "abcd"), (0, "abc")],
         nextId := 2 }] := rfl
  refine ⟨?_, rfl, ?_, ?_⟩
  · intro st hst item hitem hcustom
    rw [htr] at hst
    have hchk : some "Checking..." ≠ some ((f "abc").getD "") := by
      rw [hx]
      intro hcontra
      exact hxne (by injection hcontra with h5; exact h5.symm)
    simp only [List.mem_cons, List.not_mem_nil, or_false] at hst
    rcases hst with h | h | h | h | h | h | h
    · subst h; simp at hitem
    · subst h
      rw [List.mem_singleton] at hitem
      subst hitem
      exact hchk
    · subst h
      rw [List.mem_singleton] at hitem
      subst hitem
      exact hchk
    · subst h
      rw [List.mem_singleton] at hitem
      subst hitem
      exact hchk
    · subst h
      rw [List.mem_singleton] at hitem
      subst hitem
      exact hchk
    · subst h
      rw [List.mem_singleton] at hitem
      subst hitem
      exact hchk
    · subst h
      rw [List.mem_singleton] at hitem
      subst hitem
      show some ((f "abcd").getD "") ≠ some ((f "abc").getD "")
      rw [hx]
      cases hy : f "abcd" with
      | none =>
        intro hcontra
        injection hcontra with h5
        exact hxne2 h5.symm
      | some y =>
        intro hcontra
        injection hcontra with h5
        simp only [Option.getD_some] at h5
        apply h1
        rw [hx, hy, h5]
  · intro cfg p cap st hne
    unfold runHandler
    dsimp only
    rw [if_pos hne]
  · intro cfg p cap st heq
    unfold runHandler
    dsimp only
    rw [if_neg (not_not_intro heq)]

/-- Witness for C2 with a concrete eventual-result function whose abc
result is the string bad abc and whose abcd result is valid. -/
theorem claim_C2_witness :
    (fbRun (fbcfg (fun v => if v = "abc" then some "bad abc" else none)) {} c2events).items =
      [createItem (fbcfg (fun v => if v = "abc" then some "bad abc" else none)) "abcd"
        (((fun v : String => if v = "abc" then some "bad abc" else none) "abcd").getD "")
        (valTruthy ((fun v : String => if v = "abc" then some "bad abc" else none) "abcd"))] :=
  (claim_C2 (fun v => if v = "abc" then some "bad abc" else none)
    (by decide) (by decide) (by decide) (by decide)).2.1

end Picker
